import Mathlib

/-!
Verification development for the hackrx-intelligent-query-system repository:
a retrieval-augmented question-answering service (document chunking, vector
indexing and search, context-grounded answer synthesis, request orchestration).

The Python sources are shallowly embedded: pure functions become Lean
functions, floating-point vectors become rational vectors (with the float32
square root used by L2 normalization abstracted as an explicit function
argument), fallible code returns `Except`, and the external collaborators
(document fetching, the embedding model, the language-model endpoint) become
oracle parameters.
-/

namespace HackRx

/-! ## Python string primitives

Python `str.split()` (no argument) splits on runs of whitespace and never
yields empty words; `str.strip()` removes leading and trailing whitespace;
`s[:n]` takes the first `n` characters.  These are modelled over `List Char`
so that they evaluate inside the kernel. -/

/-- Accumulator-based splitting of a character list into maximal
whitespace-free words, mirroring Python `str.split()`. -/
def wordsAux : List Char → List Char → List (List Char)
  | [], cur => if cur = [] then [] else [cur.reverse]
  | c :: rest, cur =>
    if c.isWhitespace then
      if cur = [] then wordsAux rest [] else cur.reverse :: wordsAux rest []
    else wordsAux rest (c :: cur)

/-- Python `text.split()`: whitespace-delimited words, no empties. -/
def pySplitWs (s : String) : List String := (wordsAux s.data []).map String.mk

deriving instance DecidableEq for Except

/-- Python `s.strip()`: remove leading and trailing whitespace. -/
def pyStrip (s : String) : String :=
  String.mk (((s.data.dropWhile Char.isWhitespace).reverse.dropWhile Char.isWhitespace).reverse)

/-- Python `s[:n]` on a string. -/
def pySliceTo (s : String) (n : ℕ) : String := String.mk (s.data.take n)

/-! ## Data model (spec section 3, `document_processor.py`) -/

/-- Metadata dict attached to each chunk by `DocumentProcessor._create_chunks`. -/
structure ChunkMeta where
  source : String
  chunk_index : ℕ
  word_count : ℕ
deriving DecidableEq

/-- A document chunk: the dict `(text, metadata)` built by `_create_chunks`. -/
structure Chunk where
  text : String
  metadata : ChunkMeta
deriving DecidableEq

/-- One search hit returned by `VectorStore._search_faiss`:
the dict `(text, score, metadata)`. -/
structure RetrievalResult where
  text : String
  score : ℚ
  metadata : ChunkMeta
deriving DecidableEq

/-! ## Chunker (`DocumentProcessor._create_chunks`)

The Python loop is

    for i in range(0, len(words), self.chunk_size - self.chunk_overlap):
        chunk_words = words[i:i + self.chunk_size]
        ... append dict with chunk_index = len(chunks) ...
        if i + self.chunk_size >= len(words):
            break

embedded with explicit fuel (one unit per iteration; `words.length` units
always suffice because the position `i` strictly increases by
`step ≥ 1` each iteration and the loop stops once `i ≥ words.length`). -/

/-- One iteration of the `_create_chunks` loop.  `i` is the window start,
`acc` the chunks emitted so far (`chunk_index = acc.length` mirrors
`len(chunks)` in the source). -/
def chunkLoop (words : List String) (src : String) (size step : ℕ) :
    ℕ → ℕ → List Chunk → List Chunk
  | 0, _, acc => acc
  | fuel + 1, i, acc =>
    if i < words.length then
      let cw := (words.drop i).take size
      let c : Chunk := ⟨String.intercalate " " cw, ⟨src, acc.length, cw.length⟩⟩
      if words.length ≤ i + size then acc ++ [c]
      else chunkLoop words src size step fuel (i + step) (acc ++ [c])
    else acc

/-- `DocumentProcessor._create_chunks(text, source_url)` with the processor
configured as `chunk_size = size`, `chunk_overlap = overlap`.  The stride
`chunk_size - chunk_overlap` is computed in `ℤ` as Python does: a zero
stride makes `range` raise `ValueError`, a negative stride makes
`range(0, len(words), stride)` empty, so no chunk is produced. -/
def createChunks (size overlap : ℕ) (text src : String) : Except String (List Chunk) :=
  let words := pySplitWs text
  let step : ℤ := (size : ℤ) - (overlap : ℤ)
  if step = 0 then .error "range() arg 3 must not be zero"
  else if step < 0 then .ok []
  else .ok (chunkLoop words src size step.toNat words.length 0 [])

/-- The chunk that the source emits for the window of `size` words starting
at word position `start`, when it is the `idx`-th chunk emitted. -/
def windowChunk (words : List String) (src : String) (size start idx : ℕ) : Chunk :=
  let cw := (words.drop start).take size
  ⟨String.intercalate " " cw, ⟨src, idx, cw.length⟩⟩

/-- Tail-recursive description of the chunks `chunkLoop` emits from window
start `i` onwards with next emission index `idx`; proof companion of
`chunkLoop` (see `chunkLoop_eq_emitFrom`). -/
def emitFrom (words : List String) (src : String) (size step : ℕ) :
    ℕ → ℕ → ℕ → List Chunk
  | 0, _, _ => []
  | fuel + 1, i, idx =>
    if i < words.length then
      if words.length ≤ i + size then [windowChunk words src size i idx]
      else windowChunk words src size i idx :: emitFrom words src size step fuel (i + step) (idx + 1)
    else []

/-! ## In-memory vector store (`vector_store.py`, FAISS backend)

`VectorStore._init_faiss` creates a flat inner-product index plus a parallel
`documents` list.  Embedding components are modelled as rationals (exact
stand-ins for the float32 values).  `faiss.normalize_L2` divides every
component by the L2 norm of the vector; the float square root it uses is
abstracted as an explicit function argument `sq`, so that theorems state
exactly which property of the square root they need. -/

/-- Inner product of two vectors (`faiss.IndexFlatIP` similarity). -/
def dot (u v : List ℚ) : ℚ := (List.zipWith (· * ·) u v).sum

/-- Sum of squared components, the square of the L2 norm. -/
def sumSq (v : List ℚ) : ℚ := (v.map (fun x => x * x)).sum

/-- `faiss.normalize_L2`: divide each component by the L2 norm, whose
square root is computed by `sq`. -/
def normalizeL2 (sq : ℚ → ℚ) (v : List ℚ) : List ℚ :=
  v.map (fun x => x / sq (sumSq v))

/-- The score FAISS reports for padding entries when fewer than `k` vectors
are stored: `-FLT_MAX` (the most negative finite float32). -/
def negFltMax : ℚ := -340282346638528859811704183484516925440

/-- State of the FAISS-backed `VectorStore`: the rows added to the flat
index and the parallel `documents` list. -/
structure FaissStore where
  vectors : List (List ℚ)
  documents : List Chunk

/-- `VectorStore._init_faiss`: empty index, empty documents list. -/
def initFaiss : FaissStore := ⟨[], []⟩

/-- `VectorStore._store_faiss(chunks, embeddings)`: L2-normalize the
embeddings, `index.add` them, and `documents.extend(chunks)`. -/
def storeFaiss (sq : ℚ → ℚ) (s : FaissStore) (chunks : List Chunk)
    (embeddings : List (List ℚ)) : FaissStore :=
  ⟨s.vectors ++ embeddings.map (normalizeL2 sq), s.documents ++ chunks⟩

/-- Behaviour of `index.search(query, k)` on a flat inner-product index:
score every stored vector against the query, order by non-increasing score,
return the best `k` as `(index, score)` pairs, padding with `(-1, -FLT_MAX)`
when fewer than `k` vectors are stored. -/
def faissIndexSearch (vectors : List (List ℚ)) (q : List ℚ) (k : ℕ) :
    List (ℤ × ℚ) :=
  let scored : List (ℤ × ℚ) := vectors.enum.map (fun p => ((p.1 : ℤ), dot q p.2))
  let top := (List.insertionSort (fun a b => b.2 ≤ a.2) scored).take k
  top ++ List.replicate (k - top.length) ((-1 : ℤ), negFltMax)

/-- Python list indexing `l[i]`: negative indices count from the end;
`none` models the `IndexError` raised when the index is out of range. -/
def pyGet (l : List Chunk) (i : ℤ) : Option Chunk :=
  if 0 ≤ i then l.get? i.toNat
  else if (-i) ≤ (l.length : ℤ) then l.get? (l.length - (-i).toNat) else none

/-- The result-building loop of `_search_faiss`: for each `(idx, score)`
pair, `if idx < len(self.documents)` append the dict built from
`self.documents[idx]`; a failing list access raises `IndexError`. -/
def searchLoopFaiss (docs : List Chunk) : List (ℤ × ℚ) → Except String (List RetrievalResult)
  | [] => .ok []
  | p :: rest =>
    if p.1 < (docs.length : ℤ) then
      match pyGet docs p.1 with
      | some d =>
        match searchLoopFaiss docs rest with
        | .ok rs => .ok (⟨d.text, p.2, d.metadata⟩ :: rs)
        | .error e => .error e
      | none => .error "IndexError: list index out of range"
    else searchLoopFaiss docs rest

/-- `VectorStore._search_faiss(query_embedding, top_k)`: L2-normalize the
query, run the FAISS search, then build the result dicts. -/
def searchFaiss (sq : ℚ → ℚ) (s : FaissStore) (queryEmbedding : List ℚ)
    (topK : ℕ) : Except String (List RetrievalResult) :=
  searchLoopFaiss s.documents (faissIndexSearch s.vectors (normalizeL2 sq queryEmbedding) topK)

/-! ## Answer synthesizer (`llm_service.py`)

The OpenAI-style completion response is modelled shape-for-shape with
`Option` for absent/None members, so Python truthiness tests translate
directly.  The endpoint itself is an oracle `String → LLMOutcome` from the
user prompt to what the call does. -/

/-- The `message` member of a choice; `content` may be absent/None. -/
structure PyMessage where
  content : Option String
deriving DecidableEq

/-- One element of `response.choices`; `message` may be absent/None. -/
structure PyChoice where
  message : Option PyMessage
deriving DecidableEq

/-- A completion response; `choices` may be an absent attribute or None. -/
structure PyResponse where
  choices : Option (List PyChoice)
deriving DecidableEq

/-- What one call to `client.chat.completions.create` does: return a
response object (possibly None), or raise one of the exception classes
handled in `_generate_single_answer`. -/
inductive LLMOutcome where
  | success (response : Option PyResponse)
  | timeoutErr
  | rateLimitErr
  | apiErr (msg : String)
  | unexpectedErr (msg : String)
deriving DecidableEq

/-- The `context_text` assembled from the top `maxChunks` retrieved chunks,
with the per-chunk `[Document Section i+1]:` delimiters. -/
def buildContextText (chunks : List RetrievalResult) (maxChunks : ℕ) : String :=
  String.intercalate "\n\n"
    ((chunks.take maxChunks).enum.map
      (fun p => "[Document Section " ++ toString (p.1 + 1) ++ "]:\n" ++ p.2.text))

/-- The user prompt assembled by `_generate_single_answer`. -/
def buildPrompt (question : String) (chunks : List RetrievalResult) (maxChunks : ℕ) : String :=
  "You are an expert insurance policy analyst. Based on the provided policy document sections, answer the user\u0027s question accurately and concisely.\n\nPOLICY DOCUMENT CONTEXT:\n"
  ++ buildContextText chunks maxChunks
  ++ "\n\nQUESTION: " ++ question
  ++ "\n\nINSTRUCTIONS:\n- Provide a direct, accurate answer based solely on the policy context above\n- Quote specific policy language when relevant (use quotes \"like this\")\n- If the information isn\u0027t clearly stated in the context, say so honestly\n- Be concise but complete in your response\n- Focus on key details like amounts, timeframes, conditions, and limitations\n- If there are multiple conditions or requirements, list them clearly\n\nANSWER:"

/-- Sentinel returned when no context chunks were retrieved. -/
def noContextSentinel : String :=
  "No relevant information found in the document to answer this question."

/-- `LLMService._generate_single_answer(question, context_chunks)`.  The
returned `Bool` records whether the language-model endpoint was called.
Every branch of the source returns a string; none re-raises. -/
def generateSingleAnswer (question : String) (contextChunks : List RetrievalResult)
    (llm : String → LLMOutcome) (maxChunks : ℕ) : String × Bool :=
  if contextChunks = [] then
    (noContextSentinel, false)
  else
    match llm (buildPrompt question contextChunks maxChunks) with
    | .success resp =>
      match resp with
      | some r =>
        match r.choices with
        | some (c :: _) =>
          match c.message with
          | some m =>
            match m.content with
            | some content =>
              if content ≠ "" ∧ pyStrip content ≠ "" then (pyStrip content, true)
              else ("The model returned an empty response. This might be due to content filtering or processing issues.", true)
            | none => ("The model returned an empty response. This might be due to content filtering or processing issues.", true)
          | none => ("The model did not return a valid response structure.", true)
        | some [] => ("Received an invalid response from the language model.", true)
        | none => ("Received an invalid response from the language model.", true)
      | none => ("Received an invalid response from the language model.", true)
    | .timeoutErr => ("The request timed out while processing this question. Please try again.", true)
    | .rateLimitErr => ("Rate limit exceeded. Please try again in a moment.", true)
    | .apiErr msg =>
      (("API error occurred while processing this question: " ++ pySliceTo msg 100) ++ "...", true)
    | .unexpectedErr msg =>
      (("An unexpected error occurred: " ++ pySliceTo msg 100) ++ "...", true)

/-- `LLMService.generate_answers(questions, contexts)`: one answer per
zipped (question, context) pair, in order. -/
def generateAnswers (questions : List String) (contexts : List (List RetrievalResult))
    (llm : String → LLMOutcome) (maxChunks : ℕ) : List String :=
  (List.zip questions contexts).map
    (fun p => (generateSingleAnswer p.1 p.2 llm maxChunks).1)

/-! ## Query orchestrator (`main.py process_hackrx_query`)

The endpoint body: ingest the document (fetch + chunk, then embed every
chunk, then populate the vector store), then for each question in input
order embed it, search, and synthesize; any exception anywhere is caught by
the surrounding `except` which returns the same descriptive error string
once per question.  The document and embedding services are external
collaborators, passed as oracles.  The thin service wrappers called by `main.py`
(`DocumentService.process_document_from_url`, `generate_embedding`,
`search_similar`, `generate_answer`) are not under `src/`; following the
spec (section 4.6) they are modelled as direct delegation to
`DocumentProcessor` / `VectorStore.search` / `_generate_single_answer`. -/

/-- Sequencing of a fallible step over a list, mirroring a Python
`for` loop that appends one result per iteration and lets an exception
abort the whole loop. -/
def tryEach (f : α → Except String β) : List α → Except String (List β)
  | [] => .ok []
  | x :: xs =>
    match f x with
    | .error e => .error e
    | .ok b =>
      match tryEach f xs with
      | .error e => .error e
      | .ok bs => .ok (b :: bs)

/-- The per-question step of the orchestrator loop: embed the question,
search the store for relevant chunks, synthesize the answer.  Synthesis is
total (every failure becomes a placeholder string), so only the embedding
call and the search can raise. -/
def answerForQuestion (sq : ℚ → ℚ) (store : FaissStore)
    (embed : String → Except String (List ℚ)) (llm : String → LLMOutcome)
    (maxChunks : ℕ) (q : String) : Except String String :=
  match embed q with
  | .error e => .error e
  | .ok qe =>
    match searchFaiss sq store qe maxChunks with
    | .error e => .error e
    | .ok rel => .ok (generateSingleAnswer q rel llm maxChunks).1

/-- The answers list built by the catch-all `except Exception` branch of
`process_hackrx_query`: the same descriptive error string once per
question, so the response shape is preserved even on total failure. -/
def errorAnswers (questions : List String) (e : String) : List String :=
  List.replicate questions.length
    ("API error occurred while processing this question: " ++ e)

/-- `process_hackrx_query`: ingest once (fetch and chunk the document,
embed every chunk, populate a FAISS store), then answer every question in
input order; the surrounding `except Exception` turns any escaped error
into `len(questions)` copies of a descriptive error answer. -/
def processHackrxQuery (sq : ℚ → ℚ) (documents : String) (questions : List String)
    (fetchChunks : String → Except String (List Chunk))
    (embed : String → Except String (List ℚ))
    (llm : String → LLMOutcome) (maxChunks : ℕ) : List String :=
  match fetchChunks documents with
  | .error e => errorAnswers questions e
  | .ok chunks =>
    match tryEach (fun c => embed c.text) chunks with
    | .error e => errorAnswers questions e
    | .ok embs =>
      match tryEach (answerForQuestion sq (storeFaiss sq initFaiss chunks embs) embed llm maxChunks) questions with
      | .error e => errorAnswers questions e
      | .ok answers => answers

/-! ## Helper lemmas -/

/-- A successful `tryEach` produces exactly one output per input. -/
theorem tryEach_ok_length {α β : Type} {f : α → Except String β} :
    ∀ {l : List α} {l' : List β}, tryEach f l = .ok l' → l'.length = l.length := by
  intro l
  induction l with
  | nil => intro l' h; simp [tryEach] at h; simp [← h]
  | cons x xs ih =>
    intro l' h
    simp only [tryEach] at h
    cases hx : f x with
    | error e => rw [hx] at h; simp at h
    | ok b =>
      rw [hx] at h
      cases hxs : tryEach f xs with
      | error e => rw [hxs] at h; simp at h
      | ok bs => rw [hxs] at h; simp at h; subst h; simp [ih hxs]

/-- A successful `tryEach` maps the `k`-th input to the `k`-th output. -/
theorem tryEach_ok_getElem {α β : Type} {f : α → Except String β} :
    ∀ {l : List α} {l' : List β}, tryEach f l = .ok l' →
      ∀ (k : ℕ) (x : α), l[k]? = some x → l'[k]? = (f x).toOption := by
  intro l
  induction l with
  | nil => intro l' _ k x hx; simp at hx
  | cons y ys ih =>
    intro l' h k x hx
    simp only [tryEach] at h
    cases hy : f y with
    | error e => rw [hy] at h; simp at h
    | ok b =>
      rw [hy] at h
      cases hys : tryEach f ys with
      | error e => rw [hys] at h; simp at h
      | ok bs =>
        rw [hys] at h; simp at h; subst h
        cases k with
        | zero => simp at hx; subst hx; simp [hy, Except.toOption]
        | succ k => simp at hx ⊢; exact ih hys k x hx

/-- If every element succeeds, the whole `tryEach` succeeds. -/
theorem tryEach_ok_of_forall {α β : Type} {f : α → Except String β} :
    ∀ {l : List α}, (∀ x ∈ l, (f x).isOk) → ∃ l', tryEach f l = .ok l' := by
  intro l
  induction l with
  | nil => intro _; exact ⟨[], rfl⟩
  | cons x xs ih =>
    intro h
    have hx := h x (by simp)
    cases hfx : f x with
    | error e => rw [hfx] at hx; simp [Except.isOk, Except.toBool] at hx
    | ok b =>
      obtain ⟨l', hl'⟩ := ih (fun y hy => h y (by simp [hy]))
      exact ⟨b :: l', by simp [tryEach, hfx, hl']⟩

/-- The accumulator form `chunkLoop` emits exactly the chunks described by
`emitFrom`, appended to the accumulator;  the emission index continues from
`acc.length`, mirroring `chunk_index = len(chunks)` in the source. -/
theorem chunkLoop_eq_emitFrom (words : List String) (src : String) (size step : ℕ) :
    ∀ (fuel i : ℕ) (acc : List Chunk),
      chunkLoop words src size step fuel i acc
        = acc ++ emitFrom words src size step fuel i acc.length := by
  intro fuel
  induction fuel with
  | zero => intro i acc; simp [chunkLoop, emitFrom]
  | succ fuel ih =>
    intro i acc
    simp only [chunkLoop, emitFrom]
    by_cases h1 : i < words.length
    · simp only [if_pos h1]
      by_cases h2 : words.length ≤ i + size
      · simp [if_pos h2, windowChunk]
      · simp only [if_neg h2]
        rw [ih (i + step) (acc ++ [_])]
        simp [windowChunk, List.append_assoc]
    · simp [if_neg h1]

/-- Characterization of `emitFrom` under adequate fuel: which chunks it
emits, where their windows start, and when it stops.  `step` is the window
stride (positive), `size` the window width (at least `step`). -/
theorem emitFrom_char (words : List String) (src : String) (size step : ℕ)
    (hstep : 0 < step) (hss : step ≤ size) :
    ∀ (fuel i idx : ℕ), words.length ≤ i + fuel →
      (emitFrom words src size step fuel i idx = [] ↔ words.length ≤ i)
      ∧ (∀ (k : ℕ) (c : Chunk), (emitFrom words src size step fuel i idx)[k]? = some c →
          i + k * step < words.length ∧ c = windowChunk words src size (i + k * step) (idx + k))
      ∧ (∀ k : ℕ, k + 1 < (emitFrom words src size step fuel i idx).length →
          i + k * step + size < words.length)
      ∧ (emitFrom words src size step fuel i idx ≠ [] →
          words.length ≤ i + ((emitFrom words src size step fuel i idx).length - 1) * step + size) := by
  intro fuel
  induction fuel with
  | zero =>
    intro i idx hfuel
    refine ⟨by simpa [emitFrom] using hfuel, ?_, ?_, ?_⟩
    · intro k c hc; simp [emitFrom] at hc
    · intro k hk; simp [emitFrom] at hk
    · intro hne; simp [emitFrom] at hne
  | succ fuel ih =>
    intro i idx hfuel
    by_cases h1 : i < words.length
    · by_cases h2 : words.length ≤ i + size
      · -- final window: the loop breaks after emitting it
        have he : emitFrom words src size step (fuel + 1) i idx
            = [windowChunk words src size i idx] := by
          simp [emitFrom, if_pos h1, if_pos h2]
        refine ⟨?_, ?_, ?_, ?_⟩
        · simp [he]; omega
        · intro k c hc
          rw [he] at hc
          cases k with
          | zero => simp at hc; exact ⟨by simpa using h1, by simp [← hc]⟩
          | succ k => simp at hc
        · intro k hk; rw [he] at hk; simp at hk
        · intro _; rw [he]; simpa using h2
      · -- non-final window: recurse at i + step
        have he : emitFrom words src size step (fuel + 1) i idx
            = windowChunk words src size i idx
              :: emitFrom words src size step fuel (i + step) (idx + 1) := by
          simp [emitFrom, if_pos h1, if_neg h2]
        have hfuel' : words.length ≤ (i + step) + fuel := by omega
        obtain ⟨ihnil, ihget, ihmid, ihlast⟩ := ih (i + step) (idx + 1) hfuel'
        have hrest_ne : emitFrom words src size step fuel (i + step) (idx + 1) ≠ [] := by
          intro hn
          have := ihnil.mp hn
          omega
        refine ⟨?_, ?_, ?_, ?_⟩
        · simp [he]; omega
        · intro k c hc
          rw [he] at hc
          cases k with
          | zero =>
            simp at hc
            exact ⟨by simpa using h1, by simp [← hc]⟩
          | succ k =>
            simp at hc
            obtain ⟨hlt, hcw⟩ := ihget k c hc
            constructor
            · have : (k + 1) * step = k * step + step := by ring
              omega
            · rw [hcw]
              have h3 : i + step + k * step = i + (k + 1) * step := by ring
              have h4 : idx + 1 + k = idx + (k + 1) := by ring
              rw [h3, h4]
        · intro k hk
          rw [he] at hk
          cases k with
          | zero => simpa using h2
          | succ k =>
            simp at hk
            have := ihmid k (by omega)
            have h3 : (k + 1) * step = k * step + step := by ring
            omega
        · intro _
          rw [he]
          have hlast := ihlast hrest_ne
          have hlen : ∃ r, (emitFrom words src size step fuel (i + step) (idx + 1)).length = r + 1 := by
            cases hr : emitFrom words src size step fuel (i + step) (idx + 1) with
            | nil => exact absurd hr hrest_ne
            | cons a l => exact ⟨l.length, by simp⟩
          obtain ⟨r, hr⟩ := hlen
          rw [hr] at hlast
          have h5 : r + 1 - 1 = r := by omega
          rw [h5] at hlast
          simp only [List.length_cons, hr]
          have h4 : (r + 1 + 1 - 1) * step = r * step + step := by
            have h6 : r + 1 + 1 - 1 = r + 1 := by omega
            rw [h6]; ring
          omega
    · -- the loop guard fails immediately: nothing is emitted
      have he : emitFrom words src size step (fuel + 1) i idx = [] := by
        simp [emitFrom, if_neg h1]
      refine ⟨?_, ?_, ?_, ?_⟩
      · simp [he]; omega
      · intro k c hc; rw [he] at hc; simp at hc
      · intro k hk; rw [he] at hk; simp at hk
      · intro hne; exact absurd he hne

/-- Inner product of a component-wise divided vector with itself. -/
theorem dot_map_div (v : List ℚ) (a : ℚ) :
    dot (v.map (fun x => x / a)) (v.map (fun x => x / a)) = sumSq v / (a * a) := by
  induction v with
  | nil => simp [dot, sumSq]
  | cons x t ih =>
    simp only [dot, sumSq, List.map_cons, List.zipWith_cons_cons, List.sum_cons] at ih ⊢
    rw [ih, div_mul_div_comm]
    rw [div_add_div_same]

/-- Self inner product of an L2-normalized vector is `1`, provided the
square root used by the normalization is exact on this vector and the
vector is not the zero vector. -/
theorem dot_normalizeL2_self (sq : ℚ → ℚ) (v : List ℚ)
    (hsq : sq (sumSq v) * sq (sumSq v) = sumSq v) (hnz : sumSq v ≠ 0) :
    dot (normalizeL2 sq v) (normalizeL2 sq v) = 1 := by
  unfold normalizeL2
  rw [dot_map_div, hsq, div_self hnz]

/-- Two strings differing in their first `n` characters are different. -/
theorem string_ne_of_take_ne (s t : String) (n : ℕ)
    (h : s.data.take n ≠ t.data.take n) : s ≠ t := by
  intro he; exact h (by rw [he])

/-- Appending cannot change the first `n` characters. -/
theorem data_take_append (a x : String) (n : ℕ) (hn : n ≤ a.data.length) :
    (a ++ x).data.take n = a.data.take n := by
  rw [String.data_append]
  exact List.take_append_of_le_length hn

/-- The chunk list `_create_chunks` produces under the intended
configuration `overlap < size` (stride positive, loop runs). -/
def chunksOf (size overlap : ℕ) (text src : String) : List Chunk :=
  emitFrom (pySplitWs text) src size (size - overlap) (pySplitWs text).length 0 0

/-- When the whole word list fits in one window, the loop emits exactly one
chunk containing every word and then breaks. -/
theorem chunkLoop_single (words : List String) (src : String) (size step fuel : ℕ)
    (hw : words ≠ []) (hfuel : 0 < fuel) (hle : words.length ≤ size) :
    chunkLoop words src size step fuel 0 []
      = [⟨String.intercalate " " words, ⟨src, 0, words.length⟩⟩] := by
  cases fuel with
  | zero => omega
  | succ f =>
    have h1 : 0 < words.length := List.length_pos.mpr hw
    simp only [chunkLoop, if_pos h1, List.drop_zero, List.nil_append, List.length_nil]
    rw [List.take_of_length_le hle]
    rw [if_pos (by omega : words.length ≤ 0 + size)]

/-! ## Claim C4: the sliding-window chunking algorithm -/

/-- Claim C4: for `0 ≤ overlap < size`, chunking splits the text into
whitespace-delimited words and emits one chunk per window of `size` words,
each window starting `size - overlap` words after the previous one
(`k`-th chunk = window starting at `k * (size - overlap)`, with
`chunk_index = k` and a nonempty word list); the loop stops after the first
window that reaches or exceeds the end of the word sequence (every
non-final window ends strictly before the end, the final one reaches it),
so no residual empty chunk is emitted; and on "Alpha Beta Gamma Delta"
with `chunk_size = 2, overlap = 0` the chunks are exactly
"Alpha Beta", "Gamma Delta" with indices 0 and 1. -/
theorem c4_chunk_windows (size overlap : ℕ) (text src : String) (h : overlap < size) :
    createChunks size overlap text src = .ok (chunksOf size overlap text src)
    ∧ (∀ (k : ℕ) (c : Chunk), (chunksOf size overlap text src)[k]? = some c →
        c = windowChunk (pySplitWs text) src size (k * (size - overlap)) k
        ∧ c.metadata.chunk_index = k ∧ 0 < c.metadata.word_count)
    ∧ (∀ k : ℕ, k + 1 < (chunksOf size overlap text src).length →
        k * (size - overlap) + size < (pySplitWs text).length)
    ∧ (chunksOf size overlap text src ≠ [] →
        (pySplitWs text).length
          ≤ ((chunksOf size overlap text src).length - 1) * (size - overlap) + size)
    ∧ (chunksOf size overlap text src = [] ↔ pySplitWs text = [])
    ∧ createChunks 2 0 "Alpha Beta Gamma Delta" "doc"
        = .ok [⟨"Alpha Beta", ⟨"doc", 0, 2⟩⟩, ⟨"Gamma Delta", ⟨"doc", 1, 2⟩⟩] := by
  have hstep : 0 < size - overlap := by omega
  have hss : size - overlap ≤ size := by omega
  obtain ⟨hnil, hget, hmid, hlast⟩ :=
    emitFrom_char (pySplitWs text) src size (size - overlap) hstep hss
      (pySplitWs text).length 0 0 (by omega)
  simp only [Nat.zero_add] at hnil hget hmid hlast
  simp only [chunksOf]
  refine ⟨?_, ?_, hmid, hlast, ?_, by decide⟩
  · simp only [createChunks]
    rw [if_neg (by omega : ¬ ((size:ℤ) - (overlap:ℤ) = 0)),
      if_neg (by omega : ¬ ((size:ℤ) - (overlap:ℤ) < 0))]
    have h2 : ((size:ℤ) - (overlap:ℤ)).toNat = size - overlap := by omega
    rw [h2, chunkLoop_eq_emitFrom]
    simp
  · intro k c hc
    obtain ⟨hlt, hcw⟩ := hget k c hc
    refine ⟨hcw, ?_, ?_⟩
    · rw [hcw]; simp [windowChunk]
    · rw [hcw]
      simp only [windowChunk, List.length_take, List.length_drop]
      omega
  · rw [hnil]
    constructor
    · intro h0
      exact List.length_eq_zero.mp (by omega)
    · intro h0; simp [h0]

/-- Witness for C4 at the concrete example from the spec. -/
theorem c4_chunk_windows_witness :
    createChunks 2 0 "Alpha Beta Gamma Delta" "doc"
      = .ok (chunksOf 2 0 "Alpha Beta Gamma Delta" "doc") :=
  (c4_chunk_windows 2 0 "Alpha Beta Gamma Delta" "doc" (by decide)).1

/-! ## Claim C8: chunking edge cases -/

/-- Claim C8: for `overlap < size`, chunking the empty text yields zero
chunks, and chunking any non-empty text whose word count is at most `size`
yields exactly one chunk containing all the words. -/
theorem c8_chunk_edge_cases (size overlap : ℕ) (text src : String) (h : overlap < size) :
    (pySplitWs text = [] → createChunks size overlap text src = .ok [])
    ∧ (pySplitWs text ≠ [] → (pySplitWs text).length ≤ size →
        createChunks size overlap text src
          = .ok [⟨String.intercalate " " (pySplitWs text),
                  ⟨src, 0, (pySplitWs text).length⟩⟩]) := by
  constructor
  · intro hw
    simp only [createChunks]
    rw [if_neg (by omega : ¬ ((size:ℤ) - (overlap:ℤ) = 0)),
      if_neg (by omega : ¬ ((size:ℤ) - (overlap:ℤ) < 0))]
    rw [hw]
    rfl
  · intro hw hle
    simp only [createChunks]
    rw [if_neg (by omega : ¬ ((size:ℤ) - (overlap:ℤ) = 0)),
      if_neg (by omega : ¬ ((size:ℤ) - (overlap:ℤ) < 0))]
    rw [chunkLoop_single (pySplitWs text) src size _ _ hw
      (List.length_pos.mpr hw) hle]

/-- Witness for C8: the empty text yields no chunk, and a three-word text
with `chunk_size = 5` yields one chunk holding all three words. -/
theorem c8_chunk_edge_cases_witness :
    createChunks 5 1 "" "doc" = .ok []
    ∧ createChunks 5 1 "a b c" "doc" = .ok [⟨"a b c", ⟨"doc", 0, 3⟩⟩] :=
  ⟨(c8_chunk_edge_cases 5 1 "" "doc" (by decide)).1 (by decide),
   (c8_chunk_edge_cases 5 1 "a b c" "doc" (by decide)).2 (by decide) (by decide)⟩

/-! ## Claim C10: the chunker outside its precondition -/

/-- Claim C10: with `overlap = size` the stride is zero and `range` raises
(`ValueError`), and with `overlap > size` the stride is negative, so
`range(0, len(words), stride)` is empty and zero chunks are returned even
for non-empty text; callers must themselves keep `overlap < size`. -/
theorem c10_outside_precondition (size overlap : ℕ) (text src : String) :
    (overlap = size → createChunks size overlap text src
        = .error "range() arg 3 must not be zero")
    ∧ (size < overlap → createChunks size overlap text src = .ok []) := by
  constructor
  · intro he
    simp only [createChunks]
    rw [if_pos (by omega : (size:ℤ) - (overlap:ℤ) = 0)]
  · intro hlt
    simp only [createChunks]
    rw [if_neg (by omega : ¬ ((size:ℤ) - (overlap:ℤ) = 0)),
      if_pos (by omega : (size:ℤ) - (overlap:ℤ) < 0)]

/-- Witness for C10 at `chunk_size = 2` on a non-empty two-word text. -/
theorem c10_outside_precondition_witness :
    createChunks 2 2 "Alpha Beta" "doc" = .error "range() arg 3 must not be zero"
    ∧ createChunks 2 3 "Alpha Beta" "doc" = .ok [] :=
  ⟨(c10_outside_precondition 2 2 "Alpha Beta" "doc").1 rfl,
   (c10_outside_precondition 2 3 "Alpha Beta" "doc").2 (by decide)⟩

/-! ## Claim C5: empty retrieved context -/

/-- Claim C5: when the ranked context chunk list is empty, the synthesizer
returns the fixed no-relevant-information sentinel and the language-model
endpoint is not called at all (the `Bool` component of the embedding
records whether the endpoint was invoked). -/
theorem c5_empty_context_sentinel (question : String) (llm : String → LLMOutcome)
    (maxChunks : ℕ) :
    generateSingleAnswer question [] llm maxChunks = (noContextSentinel, false) := rfl

/-! ## Claim C6: the placeholder taxonomy of the synthesizer -/

/-- A retrieved chunk used by concrete scenarios. -/
def demoHit : RetrievalResult := ⟨"some chunk text", 0, ⟨"http://doc", 0, 3⟩⟩

/-- Counterexample to claim C6 as stated: the malformed-response shapes
"absent response" and "absent choice list" are different terminal states
but produce the same placeholder string, so not every malformed shape maps
to its own distinct placeholder. -/
theorem c6_shared_placeholder_counterexample :
    (generateSingleAnswer "q" [demoHit] (fun _ => .success none) 5).1
      = (generateSingleAnswer "q" [demoHit] (fun _ => .success (some ⟨none⟩)) 5).1
    ∧ (none : Option PyResponse) ≠ some ⟨none⟩ := by
  refine ⟨by decide, by simp⟩

/-- First characters of the `APIError` placeholder. -/
theorem apiAnswer_take4 (x y : String) :
    (("API error occurred while processing this question: " ++ x) ++ y).data.take 4
      = ['A', 'P', 'I', ' '] := by
  rw [data_take_append _ _ 4 (by rw [String.data_append]; simp)]
  rw [data_take_append _ _ 4 (by decide)]
  decide

/-- First characters of the unexpected-exception placeholder. -/
theorem unexpectedAnswer_take4 (x y : String) :
    (("An unexpected error occurred: " ++ x) ++ y).data.take 4
      = ['A', 'n', ' ', 'u'] := by
  rw [data_take_append _ _ 4 (by rw [String.data_append]; simp)]
  rw [data_take_append _ _ 4 (by decide)]
  decide

/-- A string with a nonempty character list is not the empty string. -/
theorem ne_empty_of_data_ne (s : String) (h : s.data ≠ []) : s ≠ "" :=
  fun he => h (by rw [he])

/-- The `APIError` placeholder differs from any string not starting with
its four leading characters. -/
theorem api_ne_lit (x t : String) (ht : t.data.take 4 ≠ ['A', 'P', 'I', ' ']) :
    (("API error occurred while processing this question: " ++ x) ++ "...") ≠ t := by
  intro he; exact ht (by rw [← he, apiAnswer_take4])

/-- The unexpected-exception placeholder differs from any string not
starting with its four leading characters. -/
theorem unexp_ne_lit (x t : String) (ht : t.data.take 4 ≠ ['A', 'n', ' ', 'u']) :
    (("An unexpected error occurred: " ++ x) ++ "...") ≠ t := by
  intro he; exact ht (by rw [← he, unexpectedAnswer_take4])

/-- The `APIError` and unexpected-exception placeholders never coincide,
whatever the two exception messages are. -/
theorem api_ne_unexp (x y : String) :
    (("API error occurred while processing this question: " ++ x) ++ "...")
      ≠ (("An unexpected error occurred: " ++ y) ++ "...") := by
  intro he
  have h4 := congrArg (fun s => s.data.take 4) he
  simp only at h4
  rw [apiAnswer_take4, unexpectedAnswer_take4] at h4
  exact absurd h4 (by decide)

/-- Claim C6 amended: for every question with non-empty context the
synthesizer is total and never returns an empty answer, and the failure
terminal states map to deterministic placeholder strings that are pairwise
distinguishable, except that the malformed shapes "absent response",
"absent choice list" and "empty choice list" share one placeholder (and
empty and whitespace-only content share the empty-content placeholder, as
one terminal state).  The distinguishable states are: absent message,
empty content, malformed response, timeout, rate limit, API error (any
message) and unexpected exception (any message). -/
theorem c6_placeholder_taxonomy (q : String) (chunks : List RetrievalResult) (m : ℕ)
    (msg msg2 : String) (hne : chunks ≠ []) :
    (∀ llm : String → LLMOutcome, (generateSingleAnswer q chunks llm m).1 ≠ "")
    ∧ (generateSingleAnswer q chunks (fun _ => .success none) m).1
        = (generateSingleAnswer q chunks (fun _ => .success (some ⟨none⟩)) m).1
    ∧ (generateSingleAnswer q chunks (fun _ => .success (some ⟨some []⟩)) m).1
        = (generateSingleAnswer q chunks (fun _ => .success none) m).1
    ∧ (generateSingleAnswer q chunks (fun _ => .success (some ⟨some [⟨some ⟨some "   "⟩⟩]⟩)) m).1
        = (generateSingleAnswer q chunks (fun _ => .success (some ⟨some [⟨some ⟨none⟩⟩]⟩)) m).1
    ∧ List.Pairwise (· ≠ ·)
        [(generateSingleAnswer q chunks (fun _ => .success (some ⟨some [⟨none⟩]⟩)) m).1,
         (generateSingleAnswer q chunks (fun _ => .success (some ⟨some [⟨some ⟨none⟩⟩]⟩)) m).1,
         (generateSingleAnswer q chunks (fun _ => .success none) m).1,
         (generateSingleAnswer q chunks (fun _ => .timeoutErr) m).1,
         (generateSingleAnswer q chunks (fun _ => .rateLimitErr) m).1,
         (generateSingleAnswer q chunks (fun _ => .apiErr msg) m).1,
         (generateSingleAnswer q chunks (fun _ => .unexpectedErr msg2) m).1] := by
  have hA : (generateSingleAnswer q chunks (fun _ => .success (some ⟨some [⟨none⟩]⟩)) m).1
      = "The model did not return a valid response structure." := by
    simp only [generateSingleAnswer, if_neg hne]
  have hB : (generateSingleAnswer q chunks (fun _ => .success (some ⟨some [⟨some ⟨none⟩⟩]⟩)) m).1
      = "The model returned an empty response. This might be due to content filtering or processing issues." := by
    simp only [generateSingleAnswer, if_neg hne]
  have hC : (generateSingleAnswer q chunks (fun _ => .success none) m).1
      = "Received an invalid response from the language model." := by
    simp only [generateSingleAnswer, if_neg hne]
  have hC2 : (generateSingleAnswer q chunks (fun _ => .success (some ⟨none⟩)) m).1
      = "Received an invalid response from the language model." := by
    simp only [generateSingleAnswer, if_neg hne]
  have hC3 : (generateSingleAnswer q chunks (fun _ => .success (some ⟨some []⟩)) m).1
      = "Received an invalid response from the language model." := by
    simp only [generateSingleAnswer, if_neg hne]
  have hBw : (generateSingleAnswer q chunks (fun _ => .success (some ⟨some [⟨some ⟨some "   "⟩⟩]⟩)) m).1
      = "The model returned an empty response. This might be due to content filtering or processing issues." := by
    simp only [generateSingleAnswer, if_neg hne]
    rw [if_neg (by decide)]
  have hT : (generateSingleAnswer q chunks (fun _ => .timeoutErr) m).1
      = "The request timed out while processing this question. Please try again." := by
    simp only [generateSingleAnswer, if_neg hne]
  have hR : (generateSingleAnswer q chunks (fun _ => .rateLimitErr) m).1
      = "Rate limit exceeded. Please try again in a moment." := by
    simp only [generateSingleAnswer, if_neg hne]
  have hP : (generateSingleAnswer q chunks (fun _ => .apiErr msg) m).1
      = ("API error occurred while processing this question: " ++ pySliceTo msg 100) ++ "..." := by
    simp only [generateSingleAnswer, if_neg hne]
  have hU : (generateSingleAnswer q chunks (fun _ => .unexpectedErr msg2) m).1
      = ("An unexpected error occurred: " ++ pySliceTo msg2 100) ++ "..." := by
    simp only [generateSingleAnswer, if_neg hne]
  refine ⟨?_, by rw [hC, hC2], by rw [hC3, hC], by rw [hBw, hB], ?_⟩
  · intro llm
    simp only [generateSingleAnswer]
    by_cases hc : chunks = []
    · rw [if_pos hc]; decide
    · rw [if_neg hc]
      cases hllm : llm (buildPrompt q chunks m) with
      | success resp =>
        cases resp with
        | none => dsimp only; decide
        | some r =>
          cases r with
          | mk cho =>
            cases cho with
            | none => dsimp only; decide
            | some cl =>
              cases cl with
              | nil => dsimp only; decide
              | cons c rest =>
                cases c with
                | mk cmes =>
                  cases cmes with
                  | none => dsimp only; decide
                  | some mm =>
                    cases mm with
                    | mk cont =>
                      cases cont with
                      | none => dsimp only; decide
                      | some content =>
                        dsimp only
                        by_cases hg : content ≠ "" ∧ pyStrip content ≠ ""
                        · rw [if_pos hg]; exact hg.2
                        · rw [if_neg hg]; decide
      | timeoutErr => dsimp only; decide
      | rateLimitErr => dsimp only; decide
      | apiErr e =>
        dsimp only
        apply ne_empty_of_data_ne
        rw [String.data_append]
        intro habs
        exact absurd (List.append_eq_nil.mp habs).2 (by decide)
      | unexpectedErr e =>
        dsimp only
        apply ne_empty_of_data_ne
        rw [String.data_append]
        intro habs
        exact absurd (List.append_eq_nil.mp habs).2 (by decide)
  · rw [hA, hB, hC, hT, hR, hP, hU]
    refine List.Pairwise.cons ?_ (List.Pairwise.cons ?_ (List.Pairwise.cons ?_
      (List.Pairwise.cons ?_ (List.Pairwise.cons ?_ (List.Pairwise.cons ?_
        (List.pairwise_singleton _ _))))))
    · intro x hx
      simp only [List.mem_cons, List.not_mem_nil, or_false] at hx
      rcases hx with rfl | rfl | rfl | rfl | rfl | rfl
      · decide
      · decide
      · decide
      · decide
      · exact Ne.symm (api_ne_lit _ _ (by decide))
      · exact Ne.symm (unexp_ne_lit _ _ (by decide))
    · intro x hx
      simp only [List.mem_cons, List.not_mem_nil, or_false] at hx
      rcases hx with rfl | rfl | rfl | rfl | rfl
      · decide
      · decide
      · decide
      · exact Ne.symm (api_ne_lit _ _ (by decide))
      · exact Ne.symm (unexp_ne_lit _ _ (by decide))
    · intro x hx
      simp only [List.mem_cons, List.not_mem_nil, or_false] at hx
      rcases hx with rfl | rfl | rfl | rfl
      · decide
      · decide
      · exact Ne.symm (api_ne_lit _ _ (by decide))
      · exact Ne.symm (unexp_ne_lit _ _ (by decide))
    · intro x hx
      simp only [List.mem_cons, List.not_mem_nil, or_false] at hx
      rcases hx with rfl | rfl | rfl
      · decide
      · exact Ne.symm (api_ne_lit _ _ (by decide))
      · exact Ne.symm (unexp_ne_lit _ _ (by decide))
    · intro x hx
      simp only [List.mem_cons, List.not_mem_nil, or_false] at hx
      rcases hx with rfl | rfl
      · exact Ne.symm (api_ne_lit _ _ (by decide))
      · exact Ne.symm (unexp_ne_lit _ _ (by decide))
    · intro x hx
      simp only [List.mem_cons, List.not_mem_nil, or_false] at hx
      rcases hx with rfl
      exact api_ne_unexp _ _

/-- Witness for C6 at a concrete context and concrete exception messages:
the absent-response and absent-choice-list shapes share their placeholder. -/
theorem c6_placeholder_taxonomy_witness :
    (generateSingleAnswer "q" [demoHit] (fun _ => .success none) 5).1
      = (generateSingleAnswer "q" [demoHit] (fun _ => .success (some ⟨none⟩)) 5).1 :=
  (c6_placeholder_taxonomy "q" [demoHit] 5 "boom" "crash" (by decide)).2.1

/-! ## Claim C9: normalization consistency -/

/-- Claim C9: stored vectors and query vectors are L2-normalized
identically before inner-product search, so indexing a single vector and
querying with that same raw vector yields self-similarity score exactly 1
(in this exact-arithmetic model of the float computation; the hypotheses
say the abstracted square root is exact on this vector and the vector is
not the zero vector). -/
theorem c9_self_similarity (sq : ℚ → ℚ) (v : List ℚ) (c : Chunk)
    (hsq : sq (sumSq v) * sq (sumSq v) = sumSq v) (hnz : sumSq v ≠ 0) :
    searchFaiss sq (storeFaiss sq initFaiss [c] [v]) v 1
      = .ok [⟨c.text, 1, c.metadata⟩] := by
  have hs : dot (normalizeL2 sq v) (normalizeL2 sq v) = 1 :=
    dot_normalizeL2_self sq v hsq hnz
  calc searchFaiss sq (storeFaiss sq initFaiss [c] [v]) v 1
      = .ok [⟨c.text, dot (normalizeL2 sq v) (normalizeL2 sq v), c.metadata⟩] := rfl
    _ = .ok [⟨c.text, 1, c.metadata⟩] := by rw [hs]

/-- Witness for C9 with the one-component vector `[1]` and an exact square
root for its squared norm. -/
theorem c9_self_similarity_witness :
    sumSq [(1 : ℚ)] ≠ 0
    ∧ searchFaiss (fun _ => 1) (storeFaiss (fun _ => 1) initFaiss
          [⟨"whole document", ⟨"http://doc", 0, 2⟩⟩] [[1]]) [1] 1
        = .ok [⟨"whole document", 1, ⟨"http://doc", 0, 2⟩⟩] :=
  ⟨by simp [sumSq],
   c9_self_similarity (fun _ => 1) [1] ⟨"whole document", ⟨"http://doc", 0, 2⟩⟩
     (by simp [sumSq]) (by simp [sumSq])⟩

/-! ## Claim C2: the search contract -/

/-- Exact square root stand-in used by the concrete stores below; all
their vectors are unit basis vectors, whose squared norm is 1, and the
square root of 1 is 1, so the identity is exact where it is used. -/
def sqId : ℚ → ℚ := fun x => x

/-- First chunk of the demo document. -/
def chunkA : Chunk := ⟨"alpha words", ⟨"http://docA", 0, 2⟩⟩

/-- Second chunk of the demo document. -/
def chunkB : Chunk := ⟨"beta words", ⟨"http://docA", 1, 2⟩⟩

/-- Third chunk of the demo document. -/
def chunkC : Chunk := ⟨"gamma words", ⟨"http://docA", 2, 2⟩⟩

/-- A store populated with one document of exactly 3 chunks. -/
def demoStore3 : FaissStore :=
  storeFaiss sqId initFaiss [chunkA, chunkB, chunkC] [[1,0,0],[0,1,0],[0,0,1]]

/-- Claim C2 fails on the code: with exactly 3 indexed vectors,
`_search_faiss` with `top_k = 5` returns 5 results, not at most 3 — the
FAISS padding index `-1` passes the `idx < len(self.documents)` guard and
Python negative indexing turns it into the last stored chunk; moreover on
an empty index the same path raises `IndexError` instead of returning an
empty result list.  This theorem evaluates the embedded code at both
failing inputs. -/
theorem c2_search_overcount :
    demoStore3.documents.length = 3
    ∧ ((searchFaiss sqId demoStore3 [1,0,0] 5).toOption.map List.length) = some 5
    ∧ searchFaiss sqId initFaiss [1,0,0] 5 = .error "IndexError: list index out of range" := by
  refine ⟨rfl, ?_, ?_⟩
  · norm_num [searchFaiss, demoStore3, storeFaiss, initFaiss, faissIndexSearch, searchLoopFaiss,
      normalizeL2, sumSq, dot, sqId, List.insertionSort, List.orderedInsert, pyGet,
      Except.toOption]
  · norm_num [searchFaiss, initFaiss, faissIndexSearch, searchLoopFaiss, normalizeL2, sumSq,
      dot, sqId, List.insertionSort, pyGet]

/-! ## Claim C7: cross-request isolation of the in-memory store -/

/-- A chunk belonging to a second, later-ingested document. -/
def docBChunk : Chunk := ⟨"beta text", ⟨"http://docB", 0, 2⟩⟩

/-- The store state after two successive requests ingested document A and
then document B into the same (process-global) store. -/
def storeTwoDocs : FaissStore :=
  storeFaiss sqId (storeFaiss sqId initFaiss [chunkA] [[1,0]]) [docBChunk] [[0,1]]

/-- Counterexample to claim C7 as stated: after the second request's
ingestion the in-memory index still holds the first document's chunk, and
a search made during the second request returns that chunk of document A,
so chunks do leak between documents. -/
theorem c7_cross_document_leak_counterexample :
    storeTwoDocs.documents = [chunkA, docBChunk]
    ∧ chunkA.metadata.source ≠ docBChunk.metadata.source
    ∧ searchFaiss sqId storeTwoDocs [1,0] 1 = .ok [⟨chunkA.text, 1, chunkA.metadata⟩] := by
  refine ⟨rfl, by decide, ?_⟩
  norm_num [searchFaiss, storeTwoDocs, storeFaiss, initFaiss, faissIndexSearch, searchLoopFaiss,
    normalizeL2, sumSq, dot, sqId, List.insertionSort, List.orderedInsert, pyGet,
    chunkA, docBChunk]

/-- Claim C7 amended: the in-memory store is a process-global accumulator —
`_store_faiss` appends the new chunks and vectors to whatever is already
stored and nothing ever clears the state, so isolation would require a
fresh `VectorStore` per request, which the service (a global singleton
created once at startup) does not do. -/
theorem c7_store_accumulates (sq : ℚ → ℚ) (st : FaissStore) (chunks : List Chunk)
    (embs : List (List ℚ)) :
    (storeFaiss sq st chunks embs).documents = st.documents ++ chunks
    ∧ (storeFaiss sq st chunks embs).vectors = st.vectors ++ embs.map (normalizeL2 sq) :=
  ⟨rfl, rfl⟩

/-! ## Claim C1: one answer per question, in input order -/

/-- Claim C1: for every request the returned answers list has exactly one
answer per input question (also on the total-failure path, where the
catch-all replicates one error answer per question), and in the same order:
whenever ingestion succeeds and every per-question step succeeds (synthesis
itself is total, so failed synthesis only changes the answer string), the
`k`-th answer is the answer computed for the `k`-th question. -/
theorem c1_answers_length_and_order (sq : ℚ → ℚ) (documents : String)
    (questions : List String) (fetch : String → Except String (List Chunk))
    (embed : String → Except String (List ℚ)) (llm : String → LLMOutcome) (m : ℕ) :
    (processHackrxQuery sq documents questions fetch embed llm m).length = questions.length
    ∧ ∀ (chunks : List Chunk) (embs : List (List ℚ)),
        fetch documents = .ok chunks →
        tryEach (fun c => embed c.text) chunks = .ok embs →
        (∀ q ∈ questions,
          (answerForQuestion sq (storeFaiss sq initFaiss chunks embs) embed llm m q).isOk) →
        ∀ (k : ℕ) (q : String), questions[k]? = some q →
          (processHackrxQuery sq documents questions fetch embed llm m)[k]?
            = (answerForQuestion sq (storeFaiss sq initFaiss chunks embs) embed llm m q).toOption := by
  constructor
  · unfold processHackrxQuery
    cases hf : fetch documents with
    | error e => simp [errorAnswers]
    | ok chunks =>
      dsimp only
      cases hte : tryEach (fun c => embed c.text) chunks with
      | error e => simp [errorAnswers]
      | ok embs =>
        dsimp only
        cases hta : tryEach
            (answerForQuestion sq (storeFaiss sq initFaiss chunks embs) embed llm m)
            questions with
        | error e => simp [errorAnswers]
        | ok answers => exact tryEach_ok_length hta
  · intro chunks embs hf hte hall k q hq
    obtain ⟨ansl, hansl⟩ := tryEach_ok_of_forall hall
    unfold processHackrxQuery
    rw [hf]
    dsimp only
    rw [hte]
    dsimp only
    rw [hansl]
    exact tryEach_ok_getElem hansl k q hq

/-- The single chunk of the witness scenario's document. -/
def orchChunk : Chunk := ⟨"Alpha", ⟨"http://doc", 0, 1⟩⟩

/-- Witness embedding oracle: every text embeds to the unit vector `[1]`. -/
def orchEmbed : String → Except String (List ℚ) := fun _ => .ok [1]

/-- The store the witness request builds from its one chunk. -/
def orchStore : FaissStore := storeFaiss sqId initFaiss [orchChunk] [[1]]

/-- The ranked chunks the witness request retrieves for any question. -/
def orchRel : List RetrievalResult :=
  match searchFaiss sqId orchStore [1] 5 with
  | .ok rs => rs
  | .error _ => []

/-- Witness language-model oracle: the call for question `q2` times out,
every other call succeeds with a grounded answer. -/
def orchLlm : String → LLMOutcome := fun p =>
  if p = buildPrompt "q2" orchRel 5 then .timeoutErr
  else .success (some ⟨some [⟨some ⟨some "Grounded answer."⟩⟩]⟩)

/-- Witness for C1: a two-question request in which the second question's
synthesis times out; the response still has one answer per question and
slot 1 holds exactly the per-question result computed for `q2` (the
timeout placeholder), while slot 0 holds the grounded answer for `q1`. -/
theorem c1_answers_length_and_order_witness :
    (processHackrxQuery sqId "http://doc" ["q1", "q2"]
        (fun _ => .ok [orchChunk]) orchEmbed orchLlm 5).length = 2
    ∧ (processHackrxQuery sqId "http://doc" ["q1", "q2"]
        (fun _ => .ok [orchChunk]) orchEmbed orchLlm 5)[1]?
      = (answerForQuestion sqId (storeFaiss sqId initFaiss [orchChunk] [[1]])
          orchEmbed orchLlm 5 "q2").toOption :=
  ⟨(c1_answers_length_and_order sqId "http://doc" ["q1", "q2"]
      (fun _ => .ok [orchChunk]) orchEmbed orchLlm 5).1,
   (c1_answers_length_and_order sqId "http://doc" ["q1", "q2"]
      (fun _ => .ok [orchChunk]) orchEmbed orchLlm 5).2
     [orchChunk] [[1]] rfl rfl (by decide) 1 "q2" rfl⟩

/-! ## Claim C3: behaviour on ingestion failure -/

/-- Counterexample to claim C3 as stated: when the ingestion stage fails,
the request does not fail — the endpoint catch-all still returns a
well-formed answers list with one (error-text) answer per question, so
answers are produced. -/
theorem c3_error_response_counterexample :
    processHackrxQuery sqId "http://doc" ["q1"] (fun _ => .error "fetch failed")
        (fun _ => .ok [1]) (fun _ => .success none) 5
      = ["API error occurred while processing this question: fetch failed"]
    ∧ processHackrxQuery sqId "http://doc" ["q1"] (fun _ => .error "fetch failed")
        (fun _ => .ok [1]) (fun _ => .success none) 5 ≠ [] := by
  exact ⟨by decide, by decide⟩

/-- Claim C3 amended: if the ingestion stage (document fetch/parse or chunk
embedding) fails, the orchestrator still returns a response of the normal
shape — one answer per question, every slot holding the same descriptive
error placeholder; there is never a partial-answers-plus-error shape and
never an error response from this handler. -/
theorem c3_ingestion_error_replicates (sq : ℚ → ℚ) (documents : String)
    (questions : List String) (fetch : String → Except String (List Chunk))
    (embed : String → Except String (List ℚ)) (llm : String → LLMOutcome) (m : ℕ)
    (e : String)
    (h : fetch documents = .error e
       ∨ ∃ chunks, fetch documents = .ok chunks
           ∧ tryEach (fun c => embed c.text) chunks = .error e) :
    processHackrxQuery sq documents questions fetch embed llm m
      = errorAnswers questions e := by
  unfold processHackrxQuery
  rcases h with h | ⟨chunks, hf, hte⟩
  · rw [h]
  · rw [hf]
    dsimp only
    rw [hte]

/-- Witness for C3 (amended) at a concrete fetch failure. -/
theorem c3_ingestion_error_replicates_witness :
    processHackrxQuery sqId "http://doc" ["q1", "q2"] (fun _ => .error "boom")
        (fun _ => .ok [1]) (fun _ => .success none) 5
      = errorAnswers ["q1", "q2"] "boom" :=
  c3_ingestion_error_replicates sqId "http://doc" ["q1", "q2"]
    (fun _ => .error "boom") (fun _ => .ok [1]) (fun _ => .success none) 5 "boom"
    (.inl rfl)

end HackRx
